import Mathlib

/-!
Shallow embedding of the PySpecUI core (Spectrum provenance, the Gaussian
peak-fit model, and the DataSource registry/ingestion queue) together with
theorems settling the specification claims.

Conventions of the embedding:
* Python floats are modelled by exact rationals (`ℚ`); none of the verified
  properties depend on rounding.
* A pandas two-column `DataFrame` is modelled as a list of rows
  (`List (ℚ × ℚ)`) — this captures the rectangularity pandas enforces:
  both columns of one frame always have the same length.
* A Python call that raises is modelled by `Option`/`Except` results
  (`none`/`.error` = exception).
* `np.exp` is kept abstract: definitions that need it take an
  `expFn : ℚ → ℚ` argument, so theorems hold for every exponential map.
-/

/-- Metadata-and-data part of a Spectrum: the two-column data frame
(rows `(frequency, signal)`), axis unit labels, and the display name.
This is everything `spectrum.py` stores apart from the history list. -/
structure SpecCore where
  data : List (ℚ × ℚ)
  specunit : String
  frequnit : String
  name : String

/-- Domain column (`Spectrum.getx` reads the frequency column of `self.data`). -/
def SpecCore.getx (c : SpecCore) : List ℚ := c.data.map Prod.fst

/-- Signal column (`Spectrum.gety` reads the spectral column of `self.data`). -/
def SpecCore.gety (c : SpecCore) : List ℚ := c.data.map Prod.snd

/-- One recorded history entry of `Spectrum.history`: the dict
`{type, callable, args, kwargs}`. The stored callable together with its
positional/keyword arguments is modelled as one closure; the `type` string
becomes the constructor. The `object` entry's callable receives the fresh
copy `apply_object` builds (whose history is empty), so it is embedded as a
map on `SpecCore`. -/
inductive HistEntry where
  | spec (f : List ℚ → List ℚ)
  | freq (f : List ℚ → List ℚ)
  | spec_freq (f : List ℚ → List ℚ → List ℚ × List ℚ)
  | object (f : SpecCore → SpecCore)

/-- A Spectrum: data-frame core plus the ordered transform history. -/
structure Spectrum extends SpecCore where
  history : List HistEntry

/-- Domain of a Spectrum. -/
def Spectrum.getx (s : Spectrum) : List ℚ := s.toSpecCore.getx

/-- Signal of a Spectrum. -/
def Spectrum.gety (s : Spectrum) : List ℚ := s.toSpecCore.gety

/-- Construction of the two-column frame from two arrays:
`pd.DataFrame({'frequency': freq, 'signal': spec})` raises a `ValueError`
when the two columns do not have the same length, otherwise the frame is
the list of paired rows. -/
def mkFrame (freq spec : List ℚ) : Option (List (ℚ × ℚ)) :=
  if freq.length = spec.length then some (freq.zip spec) else none

/-- Embedding of `Spectrum.from_arrays`: build the frame (which can fail on
mismatched lengths) and wrap it with metadata and an empty history. -/
def Spectrum.from_arrays (freq spec : List ℚ)
    (specunit frequnit name : String) : Option Spectrum :=
  (mkFrame freq spec).map fun d =>
    { data := d, specunit := specunit, frequnit := frequnit,
      name := name, history := [] }

/-- Embedding of `Spectrum.apply_spec`: `new_spec = func(self.gety().copy())`,
a new Spectrum is built by `from_arrays` with the domain unchanged, and its
history is a copy of the receiver's history with a `spec` entry appended. -/
def Spectrum.apply_spec (s : Spectrum) (f : List ℚ → List ℚ) :
    Option Spectrum :=
  (Spectrum.from_arrays s.getx (f s.gety) s.specunit s.frequnit s.name).map
    fun n => { n with history := s.history ++ [HistEntry.spec f] }

/-- Embedding of `Spectrum.apply_freq`: symmetric to `apply_spec`, the
callable transforms the domain only. -/
def Spectrum.apply_freq (s : Spectrum) (f : List ℚ → List ℚ) :
    Option Spectrum :=
  (Spectrum.from_arrays (f s.getx) s.gety s.specunit s.frequnit s.name).map
    fun n => { n with history := s.history ++ [HistEntry.freq f] }

/-- Embedding of `Spectrum.apply_spec_freq`: the callable receives and
returns both columns. -/
def Spectrum.apply_spec_freq (s : Spectrum)
    (f : List ℚ → List ℚ → List ℚ × List ℚ) : Option Spectrum :=
  (Spectrum.from_arrays (f s.getx s.gety).1 (f s.getx s.gety).2
      s.specunit s.frequnit s.name).map
    fun n => { n with history := s.history ++ [HistEntry.spec_freq f] }

/-- Embedding of `Spectrum.apply_object`: the callable receives a freshly
constructed copy of the receiver (built by `from_arrays`, hence with empty
history) and returns a replacement, whose history is then overwritten with
the receiver's history plus an `object` entry. -/
def Spectrum.apply_object (s : Spectrum) (f : SpecCore → SpecCore) :
    Option Spectrum :=
  (Spectrum.from_arrays s.getx s.gety s.specunit s.frequnit s.name).map
    fun fresh =>
      { toSpecCore := f fresh.toSpecCore,
        history := s.history ++ [HistEntry.object f] }

/-- Dispatch of one recorded history entry by its `type` string onto the
matching `apply_*` method — the body of the loop in
`Spectrum.apply_history`. -/
def Spectrum.applyEntry (s : Spectrum) : HistEntry → Option Spectrum
  | HistEntry.spec f => s.apply_spec f
  | HistEntry.freq f => s.apply_freq f
  | HistEntry.spec_freq f => s.apply_spec_freq f
  | HistEntry.object f => s.apply_object f

/-- Embedding of `Spectrum.apply_history`: fold the other Spectrum's
recorded entries, in original order, over the receiver. -/
def Spectrum.apply_history (s other : Spectrum) : Option Spectrum :=
  other.history.foldlM Spectrum.applyEntry s

/-- Numeric effect of one history entry on the data-frame core alone: the
operation chain of a history, with no history bookkeeping. Used to state
that replay reproduces the directly applied chain. -/
def coreStep (c : SpecCore) : HistEntry → Option SpecCore
  | HistEntry.spec f =>
      (mkFrame c.getx (f c.gety)).map fun d => { c with data := d }
  | HistEntry.freq f =>
      (mkFrame (f c.getx) c.gety).map fun d => { c with data := d }
  | HistEntry.spec_freq f =>
      (mkFrame (f c.getx c.gety).1 (f c.getx c.gety).2).map
        fun d => { c with data := d }
  | HistEntry.object f =>
      (mkFrame c.getx c.gety).map fun d => f { c with data := d }

/-- Direct application of an operation chain to a data-frame core. -/
def chainRun (entries : List HistEntry) (c : SpecCore) : Option SpecCore :=
  entries.foldlM coreStep c

/-- State-passing rendering of an `apply_spec` call: the pair is
(receiver state after the call, returned value). The Python method body
reads `self`, passes copies (`.copy()`, `deepcopy`) to the callable and the
new object, and performs no assignment to any `self` attribute. -/
def Spectrum.apply_spec_call (s : Spectrum) (f : List ℚ → List ℚ) :
    Spectrum × Option Spectrum :=
  (s, s.apply_spec f)

/-- State-passing rendering of an `apply_freq` call. -/
def Spectrum.apply_freq_call (s : Spectrum) (f : List ℚ → List ℚ) :
    Spectrum × Option Spectrum :=
  (s, s.apply_freq f)

/-- State-passing rendering of an `apply_spec_freq` call. -/
def Spectrum.apply_spec_freq_call (s : Spectrum)
    (f : List ℚ → List ℚ → List ℚ × List ℚ) : Spectrum × Option Spectrum :=
  (s, s.apply_spec_freq f)

/-- State-passing rendering of an `apply_object` call. -/
def Spectrum.apply_object_call (s : Spectrum) (f : SpecCore → SpecCore) :
    Spectrum × Option Spectrum :=
  (s, s.apply_object f)

/-!
DataSource: the trace registry fed by the ingestion queue
(`peaks/data/datasource.py`). A registry item is reduced to the fields the
registry touches: the `isinstance` kind, the mutable `id` attribute, and a
tag standing for the rest of the object.
-/

/-- Kind of a dequeued submission, as seen by the `isinstance` dispatch in
`get_next_task`: a `Spectrum`, a `Model`, or anything else. -/
inductive TraceKind where
  | spectrum
  | model
  | other
deriving DecidableEq, Repr

/-- A submission/registry item: its `isinstance` kind, its `id` attribute
(`none` models Python `None`, the state before the consumer stamps it), and
a tag standing for the payload. -/
structure DSItem where
  kind : TraceKind
  id : Option Nat
  tag : Nat
deriving DecidableEq, Repr

/-- State of a `DataSource`: the registered traces, the monotonic id
counter, and the FIFO ingestion queue (head = next item handed out). -/
structure DataSource where
  traces : List DSItem
  trace_counter : Nat
  ingest_queue : List DSItem
deriving DecidableEq, Repr

/-- Embedding of `DataSource._post_data` (the subscriber behind `submit`):
a non-blocking enqueue of the raw object, touching nothing else. -/
def DataSource.post_data (ds : DataSource) (d : DSItem) : DataSource :=
  { ds with ingest_queue := ds.ingest_queue ++ [d] }

/-- Sequence of `submit` calls, in order. -/
def DataSource.post_all (ds : DataSource) (items : List DSItem) : DataSource :=
  items.foldl DataSource.post_data ds

/-- Embedding of `DataSource.get_next_task` (= `pollOnce`): dequeue at most
one pending item; a `Spectrum` or `Model` is stamped with the next id from
`_get_next_id` (increment, then use) and appended to `traces`; anything
else is returned as-is. -/
def DataSource.get_next_task (ds : DataSource) : Option DSItem × DataSource :=
  match ds.ingest_queue with
  | [] => (none, ds)
  | d :: rest =>
    if d.kind = TraceKind.other then
      (some d, { ds with ingest_queue := rest })
    else
      let newId := ds.trace_counter + 1
      let stamped := { d with id := some newId }
      (some stamped,
        { traces := ds.traces ++ [stamped], trace_counter := newId,
          ingest_queue := rest })

/-- Repeated `get_next_task` calls by the single consumer, collecting the
returned items in order; an empty poll ends the drain. -/
def DataSource.drain : DataSource → Nat → List DSItem × DataSource
  | ds, 0 => ([], ds)
  | ds, n + 1 =>
    match ds.get_next_task with
    | (none, ds1) => ([], ds1)
    | (some d, ds1) =>
      let r := ds1.drain n
      (d :: r.1, r.2)

/-- Body of the deletion loop in `delete_trace`: pop the first trace whose
`id` equals the target and stop. -/
def removeFirstId : List DSItem → Nat → List DSItem
  | [], _ => []
  | t :: ts, i => if t.id = some i then ts else t :: removeFirstId ts i

/-- Embedding of `DataSource.delete_trace`: first the
`Plotting.RemoveTrace` notification is published, then the first trace with
the target id (if any) is popped. The second component is the list of
published pubsub topics; no error topic is ever published. -/
def DataSource.delete_trace (ds : DataSource) (target_id : Nat) :
    DataSource × List String :=
  ({ ds with traces := removeFirstId ds.traces target_id },
   ["Plotting.RemoveTrace"])

/-- Embedding of `DataSource.get_trace`: linear search for the id; raises
`ValueError` when no trace matches. -/
def DataSource.get_trace (ds : DataSource) (t_id : Nat) :
    Except String DSItem :=
  match ds.traces.find? (fun t => t.id = some t_id) with
  | some t => Except.ok t
  | none => Except.error ("No trace with ID " ++ toString t_id)

/-!
ModelGauss (`peaks/data/models.py`): the sum-of-Gaussians model, its peak
detector post-processing, fitting, prediction and tuning.
-/

/-- Python exception kinds raised by the embedded model code. -/
inductive PyErr where
  | valueError
  | nameError
deriving DecidableEq, Repr

/-- A `ModelGauss`: the referenced Spectrum, the flat parameter vector
(`None` before a fit) and the cached prediction `self.trace`. -/
structure GaussModel where
  spectrum : Spectrum
  params : Option (List ℚ)
  trace : Option (List ℚ)

/-- One Gaussian component `a * exp(-(x - mu)^2 / (2 * sigma^2))` mapped
over a domain (`ModelGauss.Gauss`); the exponential map is abstract. -/
def gaussOn (expFn : ℚ → ℚ) (x : List ℚ) (a mu sigma : ℚ) : List ℚ :=
  x.map fun t => a * expFn (-(t - mu) ^ 2 / (2 * sigma ^ 2))

/-- Pointwise sum of two equal-length vectors (`ret += ...`). -/
def addVec (u v : List ℚ) : List ℚ := u.zipWith (· + ·) v

/-- The accumulation loop of `ModelGauss.EvalModel`:
`for i in range(0, len(params), 3)` consumes the flat vector three entries
at a time; a leftover of one or two entries is an `IndexError` (`none`). -/
def evalLoop (expFn : ℚ → ℚ) (x : List ℚ) :
    List ℚ → List ℚ → Option (List ℚ)
  | acc, [] => some acc
  | acc, a :: mu :: sigma :: rest =>
    evalLoop expFn x (addVec acc (gaussOn expFn x a mu sigma)) rest
  | _, _ => none

/-- Embedding of `ModelGauss.EvalModel` at an explicit parameter vector:
start from `np.zeros(len(x))` and add one Gaussian per triple. -/
def EvalModel (expFn : ℚ → ℚ) (x : List ℚ) (params : List ℚ) :
    Option (List ℚ) :=
  evalLoop expFn x (List.replicate x.length 0) params

/-- Contract of `scipy.optimize.least_squares` with `bounds=(0, np.inf)`:
the returned vector `x` has the shape of the initial guess and respects the
bounds. The solver itself is external; `Fit` stores its output verbatim. -/
def LsqContract (x0 out : List ℚ) : Prop :=
  out.length = x0.length ∧ ∀ v ∈ out, 0 ≤ v

/-- Embedding of `ModelGauss.Fit`: the solver evaluates the residual
`EvalModel(p) - y` (its first evaluation is at the initial guess, so a
malformed guess raises before anything is stored), the solver output
`lsqX` is stored as `self.params`, the cached `self.trace` is recomputed
from it, and `True` is returned. -/
def GaussModel.Fit (expFn : ℚ → ℚ) (lsqX : List ℚ) (m : GaussModel)
    (params : List ℚ) : Option (GaussModel × Bool) := do
  let _ ← EvalModel expFn m.spectrum.getx params
  let tr ← EvalModel expFn m.spectrum.getx lsqX
  some ({ m with params := some lsqX, trace := some tr }, true)

/-- Embedding of `ModelGauss.Predict`. The guard `if not self.params:`
takes the truth value of a numpy array: an empty or single-falsy array (or
`None`) selects the logged-error branch that returns `None`; an array with
more than one element raises `ValueError` (ambiguous truth value). Past the
guard, the loop body reads the unbound name `params` (instead of
`self.params`), a `NameError`. -/
def GaussModel.Predict (m : GaussModel) (x : List ℚ) :
    Except PyErr (Option (List ℚ)) :=
  match m.params with
  | none => Except.ok none
  | some p =>
    if p.length = 0 then Except.ok none
    else if p.length = 1 then
      if p.headD 0 = 0 then Except.ok none else Except.error PyErr.nameError
    else Except.error PyErr.valueError

/-- Embedding of `ModelGauss.SetTunerParameters`: a vector whose length is
not divisible by 3 raises `ValueError`; otherwise it is stored (as a copy)
and the cached trace is recomputed synchronously. -/
def GaussModel.SetTunerParameters (expFn : ℚ → ℚ) (m : GaussModel)
    (newparams : List ℚ) : Except PyErr GaussModel :=
  if ¬ newparams.length % 3 = 0 then Except.error PyErr.valueError
  else
    match EvalModel expFn m.spectrum.getx newparams with
    | some tr =>
      Except.ok { m with params := some newparams, trace := some tr }
    | none => Except.error PyErr.valueError

/-- A candidate peak as zipped in `ParamGuess`:
`zip(sig[peaks], peaks, widths[0] / 2)`. The second component is the raw
sample index of the detected trough (a number, compared below against the
frequency axis), the third is half the measured width in samples. -/
structure Cand where
  a : ℚ
  mu : ℚ
  w : ℚ
deriving DecidableEq, Repr

/-- Candidate construction from the detection-stage outputs: the detected
peak indices (`signal.find_peaks` on the negated second derivative) and
their measured widths (`signal.peak_widths`). -/
def mkCandidates (sig : List ℚ) (peaks : List Nat) (widths : List ℚ) :
    List Cand :=
  (peaks.zip widths).map fun pw =>
    { a := sig.getD pw.1 0, mu := (pw.1 : ℚ), w := pw.2 / 2 }

/-- Sort order of `candidates.sort(key=lambda x: (x[2], x[0]), reverse=True)`:
descending lexicographic on (width, amplitude). The Python sort is stable;
it is modelled by the stable insertion sort under this total preorder. -/
def candGE (c d : Cand) : Prop := d.w < c.w ∨ (d.w = c.w ∧ d.a ≤ c.a)

instance : DecidableRel candGE := fun c d => by
  unfold candGE; infer_instance

/-- Per-component rejection test of the accept loop:
`c < 0 or np.isclose(c, 0)` with numpy defaults, i.e.
`|c - 0| ≤ atol + rtol * |0| = 1e-8`, spelled without `abs`. -/
def isBadComp (c : ℚ) : Prop :=
  c < 0 ∨ (-(1 / 100000000) ≤ c ∧ c ≤ 1 / 100000000)

instance : DecidablePred isBadComp := fun c => by
  unfold isBadComp; infer_instance

/-- Minimum of a nonempty list (`min(xax)`); 0 as the (unreached) default. -/
def listMin (xs : List ℚ) : ℚ := xs.foldl min (xs.headD 0)

/-- Maximum of a nonempty list (`max(xax)`). -/
def listMax (xs : List ℚ) : ℚ := xs.foldl max (xs.headD 0)

/-- The accept loop of `ParamGuess`: walk the sorted candidates; stop when
`len(accepted) // 3 == max_peaks` (never true for `max_peaks=None`); skip a
candidate when any of its three components is negative or close to zero,
or when its `mu` lies outside `[min(xax), max(xax))`; otherwise extend the
flat `accepted` list with the triple. -/
def acceptLoop (max_peaks : Option Nat) (xmin xmax : ℚ) :
    List Cand → List ℚ → List ℚ
  | [], acc => acc
  | c :: rest, acc =>
    if some (acc.length / 3) = max_peaks then acc
    else if isBadComp c.a ∨ isBadComp c.mu ∨ isBadComp c.w then
      acceptLoop max_peaks xmin xmax rest acc
    else if ¬ (xmin ≤ c.mu ∧ c.mu < xmax) then
      acceptLoop max_peaks xmin xmax rest acc
    else acceptLoop max_peaks xmin xmax rest (acc ++ [c.a, c.mu, c.w])

/-- Result of the guess post-processing: the flat accepted parameters and
the `Logging.Error` messages published on the way out. -/
structure GuessResult where
  accepted : List ℚ
  errors : List String
deriving DecidableEq, Repr

/-- Error message for an insufficient number of accepted peaks. -/
def msgMinPeaks : String := "Minimum number of peaks not reached"

/-- Error message for an empty accepted list. -/
def msgNoPeaks : String := "No peaks found."

/-- Post-detection stage of `ModelGauss.ParamGuess` (models.py lines
173-212), taking the detection-stage outputs (`peaks`, `widths`) as
inputs: build the candidates, sort them, run the accept loop, publish the
non-fatal error messages, and return the flat accepted list either way. -/
def ParamGuessPost (sig xax : List ℚ) (peaks : List Nat) (widths : List ℚ)
    (min_peaks : Nat) (max_peaks : Option Nat) : GuessResult :=
  let candidates :=
    (mkCandidates sig peaks widths).insertionSort candGE
  let accepted :=
    acceptLoop max_peaks (listMin xax) (listMax xax) candidates []
  let e1 := if accepted.length / 3 < min_peaks then [msgMinPeaks] else []
  let e2 := if accepted.length = 0 then [msgNoPeaks] else []
  { accepted := accepted, errors := e1 ++ e2 }

/-- Observable control flow of `ExecModel`'s worker body
`if not m.Fit(m.ParamGuess(**params)): return` followed by
`Data.AddModel`: whether `Fit` was invoked, the guess vector passed to it,
and whether the model was posted (`Fit` reaching its `return True`). -/
structure ExecOutcome where
  guess : GuessResult
  fitAttempted : Bool
  fitArg : List ℚ
  posted : Bool

/-- Embedding of `ExecModel`'s run body over the post-detection stage:
whatever `ParamGuess` returns — including an empty list — is passed
straight to `Fit`; nothing inspects the guess in between. -/
def ExecModel (expFn : ℚ → ℚ) (lsqX : List ℚ) (m : GaussModel)
    (sig xax : List ℚ) (peaks : List Nat) (widths : List ℚ)
    (min_peaks : Nat) (max_peaks : Option Nat) : ExecOutcome :=
  let g := ParamGuessPost sig xax peaks widths min_peaks max_peaks
  let fitRes := m.Fit expFn lsqX g.accepted
  { guess := g, fitAttempted := true, fitArg := g.accepted,
    posted := fitRes.isSome }

/-!
Concrete instances used to evaluate the embedded code at specific inputs.
-/

/-- A concrete exponential map (any map works for the structural claims). -/
def expFn0 : ℚ → ℚ := fun _ => 1

/-- A one-point Spectrum with domain `[0]` and signal `[2]`. -/
def spec0 : Spectrum :=
  { data := [(0, 2)], specunit := "", frequnit := "", name := "", history := [] }

/-- An unfitted model over `spec0` (`params` and `trace` still `None`). -/
def m0 : GaussModel := { spectrum := spec0, params := none, trace := none }

/-- The model produced by a successful fit of `m0` with solver output
`[2, 24, 5]` (one Gaussian: amplitude 2, center 24, width 5). -/
def m6 : GaussModel :=
  { spectrum := spec0, params := some [2, 24, 5], trace := some [2] }

/-- The model produced by a successful fit of `m0` with solver output
`[2, 0, 1]`. -/
def m9 : GaussModel :=
  { spectrum := spec0, params := some [2, 0, 1], trace := some [2] }

/-- The model stored by a tune of `m0` pushing `[-1, 2, 3]`. -/
def m9neg : GaussModel :=
  { spectrum := spec0, params := some [-1, 2, 3], trace := some [-1] }

/-- A concrete recorded signal transform for replay checks. -/
def c4f (ys : List ℚ) : List ℚ := ys.map (· + 1)

/-- Base Spectrum for the replay check. -/
def specA : Spectrum :=
  { data := [(1, 4)], specunit := "u", frequnit := "v", name := "nm",
    history := [] }

/-- A Spectrum whose history records one `spec` entry applying `c4f`. -/
def specB : Spectrum :=
  { data := [(0, 0)], specunit := "", frequnit := "", name := "",
    history := [HistEntry.spec c4f] }

/-- The result of replaying `specB`'s history onto `specA`. -/
def specR : Spectrum :=
  { data := [(1, 5)], specunit := "u", frequnit := "v", name := "nm",
    history := [HistEntry.spec c4f] }

/-- The Spectrum built by `from_arrays([1], [2], "a", "b", "c")`. -/
def spec3 : Spectrum :=
  { data := [(1, 2)], specunit := "a", frequnit := "b", name := "c",
    history := [] }

/-- A non-Spectrum, non-Model submission sitting in the queue. -/
def dOther : DSItem := { kind := TraceKind.other, id := none, tag := 7 }

/-- A registry holding one registered Spectrum, with `dOther` queued. -/
def dsQ : DataSource :=
  { traces := [{ kind := TraceKind.spectrum, id := some 1, tag := 3 }],
    trace_counter := 1, ingest_queue := [dOther] }

/-- A registry holding one registered Spectrum and an empty queue. -/
def ds8 : DataSource :=
  { traces := [{ kind := TraceKind.spectrum, id := some 1, tag := 0 }],
    trace_counter := 1, ingest_queue := [] }

/-- An empty registry. -/
def ds0 : DataSource := { traces := [], trace_counter := 0, ingest_queue := [] }

/-- Three unregistered Spectrum/Model submissions. -/
def items2 : List DSItem :=
  [{ kind := TraceKind.spectrum, id := none, tag := 10 },
   { kind := TraceKind.model, id := none, tag := 11 },
   { kind := TraceKind.spectrum, id := none, tag := 12 }]

/-- Strictly increasing ids the consumer hands out: `n` ids starting right
after counter value `c`. -/
def expectedIds (c : Nat) : Nat → List Nat
  | 0 => []
  | n + 1 => (c + 1) :: expectedIds (c + 1) n

/-!
Theorems. Shared helper lemmas come first, then one theorem per claim
(with its witness or counterexample).
-/

/-- Both columns of a Spectrum's two-column frame have the frame's length. -/
theorem Spectrum.length_getx_eq_length_gety (s : Spectrum) :
    s.getx.length = s.gety.length := by
  simp [Spectrum.getx, Spectrum.gety, SpecCore.getx, SpecCore.gety]

/-- C3: for every Spectrum, `len(getx()) == len(gety())` holds immediately
after construction and after every `apply_spec`, `apply_freq`,
`apply_spec_freq`, and `apply_object` call. -/
theorem shape_invariant_after_construct_and_apply
    (s t : Spectrum) (f g : List ℚ → List ℚ)
    (p : List ℚ → List ℚ → List ℚ × List ℚ) (k : SpecCore → SpecCore)
    (x y : List ℚ) (u v nm : String)
    (h : Spectrum.from_arrays x y u v nm = some t ∨ s.apply_spec f = some t ∨
      s.apply_freq g = some t ∨ s.apply_spec_freq p = some t ∨
      s.apply_object k = some t) :
    t.getx.length = t.gety.length :=
  Spectrum.length_getx_eq_length_gety t

/-- Witness for C3 at a concrete construction. -/
theorem shape_invariant_witness :
    Spectrum.from_arrays [1] [2] "a" "b" "c" = some spec3 ∧
      spec3.getx.length = spec3.gety.length :=
  ⟨rfl,
   shape_invariant_after_construct_and_apply spec3 spec3 id id
     (fun a b => (a, b)) id [1] [2] "a" "b" "c" (Or.inl rfl)⟩

/-- C5: every `apply*` call leaves the receiver observably unchanged — in
the state-passing rendering of the four methods, the receiver component of
the result is the input receiver, every field included. -/
theorem apply_calls_leave_receiver_unchanged
    (s : Spectrum) (f g : List ℚ → List ℚ)
    (p : List ℚ → List ℚ → List ℚ × List ℚ) (k : SpecCore → SpecCore) :
    (s.apply_spec_call f).1 = s ∧ (s.apply_freq_call g).1 = s ∧
      (s.apply_spec_freq_call p).1 = s ∧ (s.apply_object_call k).1 = s :=
  ⟨rfl, rfl, rfl, rfl⟩

/-- C10: a dequeued submission that is neither a Spectrum nor a Model is
returned as-is — id untouched, registry list and counter unchanged — while
a Spectrum or Model is id-stamped and appended to the registry. -/
theorem get_next_task_dispatch (ds : DataSource) (d : DSItem)
    (rest : List DSItem) (hq : ds.ingest_queue = d :: rest) :
    (d.kind = TraceKind.other →
      ds.get_next_task = (some d, { ds with ingest_queue := rest })) ∧
    (d.kind ≠ TraceKind.other →
      ds.get_next_task =
        (some { d with id := some (ds.trace_counter + 1) },
         { traces := ds.traces ++ [{ d with id := some (ds.trace_counter + 1) }],
           trace_counter := ds.trace_counter + 1, ingest_queue := rest })) := by
  constructor <;> intro h <;> simp [DataSource.get_next_task, hq, h]

/-- Witness for C10: draining the concrete queue holding a non-trace
submission hands it back unchanged and leaves the registry alone. -/
theorem get_next_task_dispatch_witness :
    dsQ.ingest_queue = dOther :: [] ∧
      dsQ.get_next_task = (some dOther, { dsQ with ingest_queue := [] }) :=
  ⟨rfl, (get_next_task_dispatch dsQ dOther [] rfl).1 rfl⟩

/-- C8 counterexample: deleting id 5, unknown to the concrete registry
`ds8`, publishes only the plot-removal notification and returns the
registry unchanged — no error is reported, contradicting the claim that an
unknown-id delete reports an error rather than silently succeeding. -/
theorem delete_unknown_id_is_silent : ds8.delete_trace 5 =
    (ds8, ["Plotting.RemoveTrace"]) := by
  rfl

/-- C1 (code evaluated at the failing input): with domain
`X = [10, 11, 12, 13, 14]`, signal `Y = [0, 0, 5, 0, 0]` and a detected
peak at index 2 of width 2, the claim's triple would be
`(Y[2] = 5, X[2] = 12, 1)` — positive amplitude, positive sigma, center
inside `[min(X), max(X))`, hence kept. The code instead builds the center
from the raw index 2, compares 2 against `min(X) = 10`, and discards the
candidate: the returned flat sequence is empty. -/
theorem candidate_center_uses_index_not_x :
    (ParamGuessPost [0, 0, 5, 0, 0] [10, 11, 12, 13, 14] [2] [2] 0
        none).accepted = [] ∧
      (0 : ℚ) < 5 ∧ (0 : ℚ) < 1 ∧
      listMin [10, 11, 12, 13, 14] ≤ [(10 : ℚ), 11, 12, 13, 14].getD 2 0 ∧
      [(10 : ℚ), 11, 12, 13, 14].getD 2 0 < listMax [10, 11, 12, 13, 14] := by
  have h1 : mkCandidates [0, 0, 5, 0, 0] [2] [2] = [⟨5, 2, 1⟩] := by
    norm_num [mkCandidates]
  have h2 : listMin [10, 11, 12, 13, 14] = 10 := by
    norm_num [listMin, min_def]
  have h3 : listMax [10, 11, 12, 13, 14] = 14 := by
    norm_num [listMax, max_def]
  refine ⟨?_, by norm_num, by norm_num, ?_, ?_⟩
  · simp only [ParamGuessPost, h1, h2, h3]
    norm_num [List.insertionSort, List.orderedInsert, acceptLoop, isBadComp]
  · rw [h2]; norm_num [List.getD]
  · rw [h3]; norm_num [List.getD]

/-- C6 (code evaluated at the failing input): before any fit, `Predict`
takes the logged-error branch and returns no prediction (`ok none`); after
a successful fit storing the three-entry vector `[2, 24, 5]`, `Predict`
raises — `if not self.params` on a multi-element numpy array is a
`ValueError` (and the loop body would hit the unbound name `params`) — so
no prediction is ever produced after a fit either. -/
theorem predict_raises_after_fit :
    m0.Predict [0, 1] = Except.ok none ∧
      m0.Fit expFn0 [2, 24, 5] [1, 24, 5] = some (m6, true) ∧
      m6.Predict [0, 1] = Except.error PyErr.valueError := by
  refine ⟨rfl, ?_, rfl⟩
  norm_num [GaussModel.Fit, EvalModel, evalLoop, addVec, gaussOn, m0, m6,
    spec0, expFn0, Spectrum.getx, SpecCore.getx]

/-- C9 counterexample: `SetTunerParameters` accepts the push `[-1, 2, 3]`
(length divisible by 3) and stores it, leaving an amplitude entry `-1 < 0`
in the parameter vector — the claimed non-negativity after every tune
fails. -/
theorem tune_stores_negative_amplitude :
    m0.SetTunerParameters expFn0 [-1, 2, 3] = Except.ok m9neg ∧
      m9neg.params = some [-1, 2, 3] ∧ ((-1 : ℚ) < 0) := by
  refine ⟨?_, rfl, by norm_num⟩
  norm_num [GaussModel.SetTunerParameters, EvalModel, evalLoop, addVec,
    gaussOn, m0, m9neg, spec0, expFn0, Spectrum.getx, SpecCore.getx]

/-- C7 counterexample: when the detector finds no candidate at all, the
code logs the fatal-sounding message but still returns the empty flat
list, and `ExecModel` still invokes `Fit` on it (and, the solver
completing, even posts the model) — the fit is attempted, contradicting
the claim that no fit is attempted when zero candidates survive. -/
theorem exec_model_fits_on_zero_candidates :
    (ExecModel expFn0 [] m0 [1, 2, 1] [0, 1, 2] [] [] 0 none).guess.accepted
        = [] ∧
      (ExecModel expFn0 [] m0 [1, 2, 1] [0, 1, 2] [] [] 0 none).guess.errors
        = [msgNoPeaks] ∧
      (ExecModel expFn0 [] m0 [1, 2, 1] [0, 1, 2] [] [] 0 none).fitAttempted
        = true ∧
      (ExecModel expFn0 [] m0 [1, 2, 1] [0, 1, 2] [] [] 0 none).fitArg = [] ∧
      (ExecModel expFn0 [] m0 [1, 2, 1] [0, 1, 2] [] [] 0 none).posted
        = true :=
  ⟨rfl, rfl, rfl, rfl, rfl⟩

/-- Submitting never touches the registry list, the id counter, or the
submitted objects themselves: the queue simply grows by the raw items. -/
theorem post_all_state (items : List DSItem) :
    ∀ ds : DataSource,
      (ds.post_all items).ingest_queue = ds.ingest_queue ++ items ∧
        (ds.post_all items).trace_counter = ds.trace_counter ∧
        (ds.post_all items).traces = ds.traces := by
  induction items with
  | nil => intro ds; simp [DataSource.post_all]
  | cons d rest ih =>
    intro ds
    have h := ih (ds.post_data d)
    simpa [DataSource.post_all, DataSource.post_data] using h

/-- Every id in `expectedIds c n` exceeds the starting counter `c`. -/
theorem expectedIds_lt (n : Nat) : ∀ c : Nat, ∀ x ∈ expectedIds c n, c < x := by
  induction n with
  | zero => intro c x hx; simp [expectedIds] at hx
  | succ n ih =>
    intro c x hx
    simp only [expectedIds, List.mem_cons] at hx
    rcases hx with rfl | hx
    · omega
    · have := ih (c + 1) x hx
      omega

/-- The handed-out ids are strictly increasing along the list. -/
theorem expectedIds_pairwise (n : Nat) :
    ∀ c : Nat, (expectedIds c n).Pairwise (· < ·) := by
  induction n with
  | zero => intro c; simp [expectedIds]
  | succ n ih =>
    intro c
    refine List.Pairwise.cons ?_ (ih (c + 1))
    intro x hx
    exact expectedIds_lt n (c + 1) x hx

/-- Draining a queue of Spectrum/Model submissions stamps them, in order,
with the ids `counter+1, counter+2, ...`. -/
theorem drain_ids (items : List DSItem)
    (hk : ∀ d ∈ items, d.kind ≠ TraceKind.other) :
    ∀ ds : DataSource, ds.ingest_queue = items →
      ((ds.drain items.length).1.map DSItem.id) =
        (expectedIds ds.trace_counter items.length).map some := by
  induction items with
  | nil => intro ds _; simp [DataSource.drain, expectedIds]
  | cons d rest ih =>
    intro ds hq
    have hd : d.kind ≠ TraceKind.other := hk d (List.mem_cons_self d rest)
    have hrest : ∀ x ∈ rest, x.kind ≠ TraceKind.other := fun x hx =>
      hk x (List.mem_cons_of_mem d hx)
    have step : ds.get_next_task =
        (some { d with id := some (ds.trace_counter + 1) },
         { traces := ds.traces ++ [{ d with id := some (ds.trace_counter + 1) }],
           trace_counter := ds.trace_counter + 1, ingest_queue := rest }) := by
      simp [DataSource.get_next_task, hq, hd]
    have htail := ih hrest
      { traces := ds.traces ++ [{ d with id := some (ds.trace_counter + 1) }],
        trace_counter := ds.trace_counter + 1, ingest_queue := rest } rfl
    simp only [List.length_cons, DataSource.drain, step, expectedIds,
      List.map_cons]
    simp [htail]

/-- C2: submitting N Spectrum/Model traces and draining them one at a time
through `get_next_task` leaves the submitted objects untouched in the
queue (no id is assigned at submit time), and the consumer assigns the
ids `counter+1 .. counter+N`: pairwise distinct and strictly increasing,
handed out only at dequeue. -/
theorem submitted_ids_distinct_increasing (ds : DataSource)
    (items : List DSItem) (hq : ds.ingest_queue = [])
    (hk : ∀ d ∈ items, d.kind ≠ TraceKind.other) :
    (ds.post_all items).ingest_queue = items ∧
      (((ds.post_all items).drain items.length).1.map DSItem.id) =
        (expectedIds ds.trace_counter items.length).map some ∧
      (expectedIds ds.trace_counter items.length).Pairwise (· < ·) ∧
      (expectedIds ds.trace_counter items.length).Nodup := by
  obtain ⟨hq2, hc2, _⟩ := post_all_state items ds
  rw [hq] at hq2
  simp only [List.nil_append] at hq2
  refine ⟨hq2, ?_, expectedIds_pairwise items.length ds.trace_counter, ?_⟩
  · have := drain_ids items hk (ds.post_all items) hq2
    rw [hc2] at this
    exact this
  · exact (expectedIds_pairwise items.length ds.trace_counter).imp
      Nat.ne_of_lt

/-- Witness for C2: three concrete submissions drained from the empty
registry receive ids 1, 2, 3. -/
theorem submitted_ids_witness :
    ds0.ingest_queue = [] ∧ (∀ d ∈ items2, d.kind ≠ TraceKind.other) ∧
      ((ds0.post_all items2).ingest_queue = items2 ∧
        (((ds0.post_all items2).drain items2.length).1.map DSItem.id) =
          (expectedIds ds0.trace_counter items2.length).map some ∧
        (expectedIds ds0.trace_counter items2.length).Pairwise (· < ·) ∧
        (expectedIds ds0.trace_counter items2.length).Nodup) :=
  ⟨rfl, by decide,
   submitted_ids_distinct_increasing ds0 items2 rfl (by decide)⟩

/-- A successful dispatch of one history entry has the numeric effect of
`coreStep` on the data-frame core and appends exactly that entry to the
receiver's history. -/
theorem applyEntry_core (s r : Spectrum) (e : HistEntry)
    (h : s.applyEntry e = some r) :
    coreStep s.toSpecCore e = some r.toSpecCore ∧
      r.history = s.history ++ [e] := by
  cases e with
  | spec f =>
    simp only [Spectrum.applyEntry, Spectrum.apply_spec,
      Spectrum.from_arrays, Spectrum.getx, Spectrum.gety] at h
    cases hm : mkFrame s.toSpecCore.getx (f s.toSpecCore.gety) with
    | none => rw [hm] at h; simp at h
    | some d =>
      rw [hm] at h
      simp only [Option.map_some', Option.some.injEq] at h
      subst h
      exact ⟨by simp [coreStep, hm], rfl⟩
  | freq f =>
    simp only [Spectrum.applyEntry, Spectrum.apply_freq,
      Spectrum.from_arrays, Spectrum.getx, Spectrum.gety] at h
    cases hm : mkFrame (f s.toSpecCore.getx) s.toSpecCore.gety with
    | none => rw [hm] at h; simp at h
    | some d =>
      rw [hm] at h
      simp only [Option.map_some', Option.some.injEq] at h
      subst h
      exact ⟨by simp [coreStep, hm], rfl⟩
  | spec_freq f =>
    simp only [Spectrum.applyEntry, Spectrum.apply_spec_freq,
      Spectrum.from_arrays, Spectrum.getx, Spectrum.gety] at h
    cases hm : mkFrame (f s.toSpecCore.getx s.toSpecCore.gety).1
        (f s.toSpecCore.getx s.toSpecCore.gety).2 with
    | none => rw [hm] at h; simp at h
    | some d =>
      rw [hm] at h
      simp only [Option.map_some', Option.some.injEq] at h
      subst h
      exact ⟨by simp [coreStep, hm], rfl⟩
  | object f =>
    simp only [Spectrum.applyEntry, Spectrum.apply_object,
      Spectrum.from_arrays, Spectrum.getx, Spectrum.gety] at h
    cases hm : mkFrame s.toSpecCore.getx s.toSpecCore.gety with
    | none => rw [hm] at h; simp at h
    | some d =>
      rw [hm] at h
      simp only [Option.map_some', Option.some.injEq] at h
      subst h
      exact ⟨by simp [coreStep, hm], rfl⟩

/-- Folding history entries over a Spectrum matches the direct chain on
the core and concatenates the entries onto the history. -/
theorem replay_core (entries : List HistEntry) :
    ∀ s r : Spectrum, entries.foldlM Spectrum.applyEntry s = some r →
      chainRun entries s.toSpecCore = some r.toSpecCore ∧
        r.history = s.history ++ entries := by
  induction entries with
  | nil =>
    intro s r h
    simp only [List.foldlM_nil, pure, Option.some.injEq] at h
    subst h
    simp [chainRun]
  | cons e es ih =>
    intro s r h
    rw [List.foldlM_cons] at h
    cases hm : s.applyEntry e with
    | none => rw [hm] at h; simp at h
    | some mid =>
      rw [hm] at h
      simp only [Option.bind_eq_bind, Option.some_bind] at h
      obtain ⟨hcore, hhist⟩ := applyEntry_core s mid e hm
      obtain ⟨ihcore, ihhist⟩ := ih mid r h
      constructor
      · rw [chainRun, List.foldlM_cons, hcore]
        simpa [chainRun] using ihcore
      · rw [ihhist, hhist, List.append_assoc]
        rfl

/-- C4: a successful `apply_history` replay of `other`'s entries onto `a`
computes exactly the direct application of `other`'s operation chain to
`a`'s data-frame core, and the result's history is `a`'s history followed
by `other`'s entries in order. -/
theorem replay_matches_direct_chain (a other r : Spectrum)
    (h : a.apply_history other = some r) :
    chainRun other.history a.toSpecCore = some r.toSpecCore ∧
      r.history = a.history ++ other.history :=
  replay_core other.history a r h

/-- Witness for C4 at a concrete replay of one recorded entry. -/
theorem replay_matches_direct_chain_witness :
    specA.apply_history specB = some specR ∧
      (chainRun specB.history specA.toSpecCore = some specR.toSpecCore ∧
        specR.history = specA.history ++ specB.history) := by
  have h : specA.apply_history specB = some specR := by
    norm_num [Spectrum.apply_history, Spectrum.applyEntry,
      Spectrum.apply_spec, Spectrum.from_arrays, mkFrame, c4f, specA, specB,
      specR, Spectrum.getx, Spectrum.gety, SpecCore.getx, SpecCore.gety]
  exact ⟨h, replay_matches_direct_chain specA specB specR h⟩

/-- Deleting an id that matches no trace leaves the list untouched. -/
theorem removeFirstId_no_match (l : List DSItem) (i : Nat)
    (h : ∀ t ∈ l, t.id ≠ some i) : removeFirstId l i = l := by
  induction l with
  | nil => rfl
  | cons t ts ih =>
    have ht := h t (List.mem_cons_self t ts)
    simp only [removeFirstId, ht, if_false, ite_eq_right_iff]
    rw [ih fun x hx => h x (List.mem_cons_of_mem t hx)]

/-- After popping the only matching trace, no trace matches any more. -/
theorem removeFirstId_find_none : ∀ (l : List DSItem) (i : Nat),
    l.countP (fun t => t.id = some i) ≤ 1 →
      (removeFirstId l i).find? (fun t => t.id = some i) = none := by
  intro l i
  induction l with
  | nil => intro _; rfl
  | cons t ts ih =>
    intro h
    by_cases ht : t.id = some i
    · simp only [removeFirstId, ht, if_true, if_pos]
      rw [List.find?_eq_none]
      intro x hx
      have hc : ts.countP (fun t => decide (t.id = some i)) = 0 := by
        rw [List.countP_cons_of_pos] at h
        · omega
        · simpa using ht
      have := List.countP_eq_zero.mp hc x hx
      simpa using this
    · simp only [removeFirstId, ht, if_false]
      rw [List.find?_cons_of_neg]
      · refine ih ?_
        rw [List.countP_cons_of_neg] at h
        · exact h
        · simpa using ht
      · simpa using ht

/-- C8 (amended): deleting an id unknown to the registry publishes only
the plot-removal notification and returns the registry unchanged — a
silent no-op, with no reported error; and for any id held by at most one
trace (the id-uniqueness invariant), `get_trace` reports not-found
immediately after `delete_trace`. -/
theorem delete_semantics (ds : DataSource) (i : Nat) :
    ((∀ t ∈ ds.traces, t.id ≠ some i) →
      ds.delete_trace i = (ds, ["Plotting.RemoveTrace"])) ∧
    (ds.traces.countP (fun t => t.id = some i) ≤ 1 →
      (ds.delete_trace i).1.get_trace i =
        Except.error ("No trace with ID " ++ toString i)) := by
  constructor
  · intro h
    simp [DataSource.delete_trace, removeFirstId_no_match ds.traces i h]
  · intro h
    simp [DataSource.delete_trace, DataSource.get_trace,
      removeFirstId_find_none ds.traces i h]

/-- Witness for C8 at the concrete registry `ds8` and the unknown id 5. -/
theorem delete_semantics_witness :
    (∀ t ∈ ds8.traces, t.id ≠ some 5) ∧
      ds8.traces.countP (fun t => t.id = some 5) ≤ 1 ∧
      ds8.delete_trace 5 = (ds8, ["Plotting.RemoveTrace"]) ∧
      (ds8.delete_trace 5).1.get_trace 5 =
        Except.error ("No trace with ID " ++ toString 5) :=
  ⟨by decide, by decide, (delete_semantics ds8 5).1 (by decide),
   (delete_semantics ds8 5).2 (by decide)⟩

/-- A parameter vector the evaluation loop consumes completely has length
divisible by 3; a leftover of one or two entries is an `IndexError`. -/
theorem evalLoop_mod3 (expFn : ℚ → ℚ) (x : List ℚ) :
    ∀ (ps acc r : List ℚ), evalLoop expFn x acc ps = some r →
      ps.length % 3 = 0
  | [], _, _, _ => by simp
  | [_], _, _, h => by simp [evalLoop] at h
  | [_, _], _, _, h => by simp [evalLoop] at h
  | a :: b :: c :: rest, acc, r, h => by
    have hr := evalLoop_mod3 expFn x rest
      (addVec acc (gaussOn expFn x a b c)) r (by simpa [evalLoop] using h)
    simp only [List.length_cons]
    omega

/-- C9 (amended): a completed `Fit` whose solver output respects the
`least_squares` contract stores a vector of length divisible by 3 with
every entry (amplitudes and widths included) non-negative, while
`SetTunerParameters` enforces only the divisible-by-3 length — it stores
whatever values are pushed, with no sign constraint. -/
theorem fit_and_tune_params (expFn : ℚ → ℚ) (m m1 : GaussModel)
    (x0 lsqX : List ℚ) (hc : LsqContract x0 lsqX)
    (hf : m.Fit expFn lsqX x0 = some (m1, true)) :
    (m1.params = some lsqX ∧ lsqX.length % 3 = 0 ∧ ∀ v ∈ lsqX, 0 ≤ v) ∧
      (∀ (np : List ℚ) (m2 : GaussModel),
        m.SetTunerParameters expFn np = Except.ok m2 →
          m2.params = some np ∧ np.length % 3 = 0) := by
  constructor
  · unfold GaussModel.Fit at hf
    cases h1 : EvalModel expFn m.spectrum.getx x0 with
    | none => rw [h1] at hf; simp at hf
    | some w1 =>
      rw [h1] at hf
      cases h2 : EvalModel expFn m.spectrum.getx lsqX with
      | none => rw [h2] at hf; simp at hf
      | some tr =>
        rw [h2] at hf
        simp only [Option.bind_eq_bind, Option.some_bind,
          Option.some.injEq, Prod.mk.injEq] at hf
        refine ⟨?_, ?_, hc.2⟩
        · rw [← hf.1]
        · have := evalLoop_mod3 expFn m.spectrum.getx x0
            (List.replicate m.spectrum.getx.length 0) w1
            (by simpa [EvalModel] using h1)
          rw [hc.1]
          exact this
  · intro np m2 hset
    unfold GaussModel.SetTunerParameters at hset
    by_cases hl : np.length % 3 = 0
    · simp only [hl, not_true_eq_false, if_false] at hset
      cases h3 : EvalModel expFn m.spectrum.getx np with
      | none => rw [h3] at hset; simp at hset
      | some tr =>
        rw [h3] at hset
        simp only [Except.ok.injEq] at hset
        exact ⟨by rw [← hset], hl⟩
    · simp [hl] at hset

/-- Witness for C9 at a concrete fit of one Gaussian. -/
theorem fit_and_tune_params_witness :
    LsqContract [1, 0, 1] [2, 0, 1] ∧
      m0.Fit expFn0 [2, 0, 1] [1, 0, 1] = some (m9, true) ∧
      (m9.params = some [2, 0, 1] ∧ ([(2 : ℚ), 0, 1] : List ℚ).length % 3 = 0 ∧
        ∀ v ∈ ([(2 : ℚ), 0, 1] : List ℚ), 0 ≤ v) := by
  have hc : LsqContract [1, 0, 1] [2, 0, 1] := by
    constructor
    · rfl
    · decide
  have hf : m0.Fit expFn0 [2, 0, 1] [1, 0, 1] = some (m9, true) := by
    norm_num [GaussModel.Fit, EvalModel, evalLoop, addVec, gaussOn, m0, m9,
      spec0, expFn0, Spectrum.getx, SpecCore.getx]
  exact ⟨hc, hf, (fit_and_tune_params expFn0 m0 m9 _ _ hc hf).1⟩

/-- C7 (amended): an empty surviving-candidate set is reported with the
"No peaks found." error but the empty flat list is still returned, and
`ExecModel` still invokes `Fit` on it; a non-empty surviving set below the
requested minimum is reported with the non-fatal "minimum not reached"
error and is still returned, fitting proceeding on it. -/
theorem peak_count_error_handling (expFn : ℚ → ℚ) (lsqX : List ℚ)
    (m : GaussModel) (sig xax : List ℚ) (peaks : List Nat)
    (widths : List ℚ) (min_peaks : Nat) (max_peaks : Option Nat) :
    ((ParamGuessPost sig xax peaks widths min_peaks max_peaks).accepted
        = [] →
      msgNoPeaks ∈
          (ParamGuessPost sig xax peaks widths min_peaks max_peaks).errors ∧
        (ExecModel expFn lsqX m sig xax peaks widths min_peaks
            max_peaks).fitAttempted = true ∧
        (ExecModel expFn lsqX m sig xax peaks widths min_peaks
            max_peaks).fitArg = []) ∧
    ((ParamGuessPost sig xax peaks widths min_peaks max_peaks).accepted
        ≠ [] →
      (ParamGuessPost sig xax peaks widths min_peaks
          max_peaks).accepted.length / 3 < min_peaks →
      (ParamGuessPost sig xax peaks widths min_peaks max_peaks).errors
          = [msgMinPeaks] ∧
        (ExecModel expFn lsqX m sig xax peaks widths min_peaks
            max_peaks).fitArg =
          (ParamGuessPost sig xax peaks widths min_peaks
            max_peaks).accepted ∧
        (ExecModel expFn lsqX m sig xax peaks widths min_peaks
            max_peaks).fitAttempted = true) := by
  constructor
  · intro h
    refine ⟨?_, rfl, ?_⟩
    · simp only [ParamGuessPost] at h ⊢
      simp [h]
    · simp only [ExecModel]
      exact h
  · intro h1 h2
    refine ⟨?_, rfl, rfl⟩
    simp only [ParamGuessPost] at h1 h2 ⊢
    have hne : ¬ (acceptLoop max_peaks (listMin xax) (listMax xax)
        ((mkCandidates sig peaks widths).insertionSort candGE) []).length
        = 0 := by
      intro h0
      exact h1 (List.length_eq_zero.mp h0)
    simp [h2, hne]

/-- Witness for C7: the below-minimum branch at a concrete one-peak input
asked for at least two peaks. -/
theorem peak_count_error_handling_witness :
    ((ParamGuessPost [0, 5, 0] [0, 1, 2] [1] [2] 2 none).accepted ≠ [] ∧
      (ParamGuessPost [0, 5, 0] [0, 1, 2] [1] [2] 2
          none).accepted.length / 3 < 2) ∧
      ((ParamGuessPost [0, 5, 0] [0, 1, 2] [1] [2] 2 none).errors
          = [msgMinPeaks] ∧
        (ExecModel expFn0 [] m0 [0, 5, 0] [0, 1, 2] [1] [2] 2 none).fitArg =
          (ParamGuessPost [0, 5, 0] [0, 1, 2] [1] [2] 2 none).accepted ∧
        (ExecModel expFn0 [] m0 [0, 5, 0] [0, 1, 2] [1] [2] 2
            none).fitAttempted = true) := by
  have h1 : mkCandidates [0, 5, 0] [1] [2] = [⟨5, 1, 1⟩] := by
    norm_num [mkCandidates]
  have h2 : listMin [0, 1, 2] = 0 := by norm_num [listMin, min_def]
  have h3 : listMax [0, 1, 2] = 2 := by norm_num [listMax, max_def]
  have hacc : (ParamGuessPost [0, 5, 0] [0, 1, 2] [1] [2] 2
      none).accepted = [5, 1, 1] := by
    simp only [ParamGuessPost, h1, h2, h3]
    norm_num [List.insertionSort, List.orderedInsert, acceptLoop, isBadComp]
    intro hcon
    exact Option.noConfusion hcon
  refine ⟨⟨by simp [hacc], by simp [hacc]⟩, ?_⟩
  exact (peak_count_error_handling expFn0 [] m0 [0, 5, 0] [0, 1, 2] [1] [2]
    2 none).2 (by simp [hacc]) (by simp [hacc])
